import Mathlib

/-!
Shallow embedding of the thakii-lambda-router request router.

The repository contains two near-duplicate implementations of the routing
engine: `src/lambda_function.py` (embedded below in namespace `Orig`) and
`src/lambda_function_fixed.py` (namespace `Fixed`).  Python dictionaries are
modelled as insertion-ordered association lists, `time.time()` as a single
injected integer clock `now` per request, and the HTTP transport and the
health probe as injected oracles.  `json.dumps` of the structured error
bodies is modelled by the structured value itself (`RespBody.errJson`).
-/

namespace ThakiiRouter

/-- Header maps and request maps: insertion-ordered association lists,
mirroring Python dict iteration order. -/
abbrev StrMap := List (String × String)

/-- One entry of the `ai_services` configuration list.  Optional fields model
the Python `dict.get(key, default)` accesses. -/
structure Service where
  name : String
  url : String
  priority : Option Int
  timeout : Option Int
  enabled : Option Bool
deriving DecidableEq

/-- The `circuit_breaker` section of the configuration. -/
structure CBConfig where
  failure_threshold : Option Int
  recovery_timeout : Option Int
deriving DecidableEq

/-- The configuration document consumed by both implementations. -/
structure Config where
  ai_services : List Service
  circuit_breaker : Option CBConfig
  default_timeout : Option Int
deriving DecidableEq

/-- Python `config.get('circuit_breaker', {}).get('failure_threshold', 5)`. -/
def failure_threshold_of (cfg : Config) : Int :=
  match cfg.circuit_breaker with
  | some c => c.failure_threshold.getD 5
  | none => 5

/-- Python `config.get('circuit_breaker', {}).get('recovery_timeout', 60)`. -/
def recovery_timeout_of (cfg : Config) : Int :=
  match cfg.circuit_breaker with
  | some c => c.recovery_timeout.getD 60
  | none => 60

/-- Python dict assignment `m[k] = v` on an association list: replaces the
first binding of `k` in place, or appends a new binding at the end. -/
def setK {α : Type} : List (String × α) → String → α → List (String × α)
  | [], k, v => [(k, v)]
  | (k', v') :: rest, k, v =>
    if k' == k then (k', v) :: rest else (k', v') :: setK rest k v

/-- Sort key used by both implementations: `service.get('priority', 999)`. -/
def prioKey (s : Service) : Int := s.priority.getD 999

/-- Stable insertion of one element into a list by ascending `prioKey`; the
inserted element goes before later elements of equal key, matching the
stability of Python `sorted`. -/
def insertByPriority (x : Service) : List Service → List Service
  | [] => [x]
  | y :: ys =>
    if prioKey x ≤ prioKey y then x :: y :: ys else y :: insertByPriority x ys

/-- Model of Python `sorted(available, key=lambda s: s.get('priority', 999))`.
Python `sorted` is a stable ascending sort, and a stable ascending sort of a
given list is unique, so this insertion sort computes exactly its output. -/
def sortByPriority : List Service → List Service
  | [] => []
  | x :: xs => insertByPriority x (sortByPriority xs)

/-- ASCII lowercase of one character, modelling Python `str.lower()` on the
ASCII range (header names are ASCII). -/
def lowerChar (c : Char) : Char :=
  if 'A' ≤ c ∧ c ≤ 'Z' then Char.ofNat (c.toNat + 32) else c

/-- ASCII lowercase of a string (model of Python `str.lower()`). -/
def asciiLower (s : String) : String := String.mk (s.data.map lowerChar)

/-- ASCII uppercase of one character, modelling Python `str.upper()` on the
ASCII range (HTTP method names are ASCII). -/
def upperChar (c : Char) : Char :=
  if 'a' ≤ c ∧ c ≤ 'z' then Char.ofNat (c.toNat - 32) else c

/-- ASCII uppercase of a string (model of Python `str.upper()`). -/
def asciiUpper (s : String) : String := String.mk (s.data.map upperChar)

/-- An HTTP request handed to the transport oracle. -/
structure HReq where
  method : String
  url : String
  headers : StrMap
  timeoutSec : Int
deriving DecidableEq

/-- Outcome of one call to the `requests` library: a response, or one of the
exception classes the code distinguishes. -/
inductive TransportResult where
  | ok (status : Int) (headers : StrMap) (body : String)
  | timeout
  | connError
  | exc (msg : String)
deriving DecidableEq

/-- Text of `str(e)` for a transport-level exception, used in error bodies. -/
def TransportResult.errText : TransportResult → String
  | .ok _ _ _ => ""
  | .timeout => "timeout"
  | .connError => "connection error"
  | .exc m => m

/-- Observable network events: a health probe (`GET {url}/health` with its
timeout in seconds) or a forwarded request. -/
inductive Ev where
  | health (url : String) (timeoutSec : Int)
  | call (req : HReq)
deriving DecidableEq

/-- Structured response body: either the backend's own body text, or one of
the synthetic JSON error bodies.  `lastError = none` models the absence of
the `last_error` field, `some none` models `"last_error": null`;
`timestamp = none` models the absence of the `timestamp` field. -/
inductive RespBody where
  | fromBackend (s : String)
  | errJson (error : String) (message : String)
      (lastError : Option (Option String)) (timestamp : Option Int)
deriving DecidableEq

/-- The platform response envelope produced by the handler. -/
structure LambdaResponse where
  statusCode : Int
  headers : StrMap
  body : RespBody
  isBase64Encoded : Bool
deriving DecidableEq

namespace Orig

/-!  Embedding of `src/lambda_function.py`. -/

/-- Circuit-breaker entry of `lambda_function.py`:
`{'failures': int, 'last_failure': float}` (no explicit status field). -/
structure CBState where
  failures : Int
  last_failure : Int
deriving DecidableEq

abbrev CBMap := List (String × CBState)

/-- Embedding of `ServiceManager._is_circuit_breaker_open` (lines 41-56).
Returns the boolean answer together with the possibly mutated breaker map:
when the recovery timeout has elapsed the entry is reset to
`{'failures': 0, 'last_failure': 0}`. -/
def is_circuit_breaker_open (cfg : Config) (cbs : CBMap) (name : String)
    (now : Int) : Bool × CBMap :=
  let th := failure_threshold_of cfg
  let rt := recovery_timeout_of cfg
  let st := (List.lookup name cbs).getD ⟨0, 0⟩
  if th ≤ st.failures then
    if now - st.last_failure < rt then (true, cbs)
    else (false, setK cbs name ⟨0, 0⟩)
  else (false, cbs)

/-- Embedding of `ServiceManager.record_failure` (lines 58-67): insert a
default entry when absent, then increment `failures` and stamp
`last_failure = now`. -/
def record_failure (cbs : CBMap) (name : String) (now : Int) : CBMap :=
  let st := (List.lookup name cbs).getD ⟨0, 0⟩
  setK cbs name ⟨st.failures + 1, now⟩

/-- Embedding of `ServiceManager.record_success` (lines 69-73): reset
`failures` to 0 when an entry exists, keeping `last_failure`; no entry is
created otherwise. -/
def record_success (cbs : CBMap) (name : String) : CBMap :=
  match List.lookup name cbs with
  | some st => setK cbs name ⟨0, st.last_failure⟩
  | none => cbs

/-- The filtering loop of `ServiceManager.get_available_services`
(lines 20-37), threading the breaker-map mutations performed by
`_is_circuit_breaker_open`. -/
def availLoop (cfg : Config) (now : Int) :
    List Service → CBMap → List Service × CBMap
  | [], cbs => ([], cbs)
  | s :: rest, cbs =>
    if !(s.enabled.getD true) then availLoop cfg now rest cbs
    else
      let p := is_circuit_breaker_open cfg cbs s.name now
      if p.1 then availLoop cfg now rest p.2
      else
        let q := availLoop cfg now rest p.2
        (s :: q.1, q.2)

/-- Embedding of `ServiceManager.get_available_services` (lines 20-39):
filter, then stable sort by priority. -/
def get_available_services (cfg : Config) (cbs : CBMap) (now : Int) :
    List Service × CBMap :=
  let p := availLoop cfg now cfg.ai_services cbs
  (sortByPriority p.1, p.2)

/-- Embedding of `health_check_service` (lines 112-122): `GET {url}/health`
with a 5 second timeout; healthy iff status 200, any exception counts as
unhealthy.  The probe oracle maps (url, timeout) to `some status` or `none`
for an exception. -/
def health_check_service (probe : String → Int → Option Int) (s : Service) :
    Bool :=
  match probe (s.url ++ "/health") 5 with
  | some code => code == 200
  | none => false

/-- Request-header names dropped by `forward_request` (line 133). -/
def reqHeaderDrop : List String := ["host", "connection", "content-length"]

/-- The forwarded request headers of `forward_request` (lines 131-134):
keep every header whose lowercased name is not in `reqHeaderDrop`. -/
def forwardedHeaders (hs : StrMap) : StrMap :=
  hs.filter (fun kv => !(reqHeaderDrop.contains (asciiLower kv.fst)))

/-- Response-header names dropped by `forward_request` (line 155). -/
def respHeaderDrop : List String := ["connection", "transfer-encoding"]

/-- The returned response headers of `forward_request` (lines 153-156). -/
def filteredResponseHeaders (hs : StrMap) : StrMap :=
  hs.filter (fun kv => !(respHeaderDrop.contains (asciiLower kv.fst)))

/-- The method dispatch of `forward_request` (lines 138-150). -/
def methodSupported (m : String) : Bool :=
  m == "GET" || m == "POST" || m == "PUT" || m == "DELETE"

/-- Embedding of `forward_request` (lines 124-169).  The result is
`(status, response headers, body, network events)`; exception classes are
mapped to the synthetic statuses 504/503/500 as in the Python `except`
clauses, and an unsupported method returns 405 without any network call. -/
def forward_request (transport : HReq → TransportResult) (s : Service)
    (path method : String) (headers : StrMap) :
    Int × StrMap × String × List Ev :=
  let req : HReq :=
    ⟨method, s.url ++ path, forwardedHeaders headers, s.timeout.getD 300⟩
  if methodSupported method then
    match transport req with
    | .ok st rh body => (st, filteredResponseHeaders rh, body, [Ev.call req])
    | .timeout => (504, [], "Gateway timeout", [Ev.call req])
    | .connError => (503, [], "Service unavailable", [Ev.call req])
    | .exc _ => (500, [], "Internal server error", [Ev.call req])
  else (405, [], "Method not allowed", [])

/-- Content-type prefixes treated as binary (lines 242-243). -/
def binaryTypes : List String := ["application/pdf", "image/", "video/", "audio/"]

/-- Character-list substring occurrence test. -/
def hasSubAux (sub : List Char) : List Char → Bool
  | [] => sub.isEmpty
  | c :: rest => List.isPrefixOf sub (c :: rest) || hasSubAux sub rest

/-- Substring test used for the binary content-type check, modelling the
Python `in` operator on strings. -/
def containsSub (s sub : String) : Bool := hasSubAux sub.toList s.toList

/-- The binary-response detection of `lambda_handler` (lines 242-243):
a case-sensitive dict lookup of the key `content-type` on the copied
response headers, then substring matching on its lowercased value. -/
def isBinaryResponse (rh : StrMap) : Bool :=
  let ct := asciiLower ((List.lookup "content-type" rh).getD "")
  binaryTypes.any (fun t => containsSub ct t)

/-- The success response built by `lambda_handler` (lines 234-249).  The
base64 re-encoding of binary bodies is adapter-level; the model keeps the
body text and records the `isBase64Encoded` flag. -/
def successResponse (st : Int) (rh : StrMap) (body : String) : LambdaResponse :=
  { statusCode := st, headers := rh, body := .fromBackend body,
    isBase64Encoded := isBinaryResponse rh }

/-- The headers of the synthetic error responses (lines 203-206, 262-265). -/
def corsHeaders : StrMap :=
  [("Content-Type", "application/json"), ("Access-Control-Allow-Origin", "*")]

/-- Body of the "no available services" 503 (lines 207-211). -/
def noServicesBody (now : Int) : RespBody :=
  .errJson "Service not reachable at this moment"
    "All AI services are currently unavailable. Please try again later."
    none (some now)

/-- Body of the "all services failed" 503 (lines 266-271); the `last_error`
field is present, possibly null. -/
def allFailedBody (lastError : Option String) (now : Int) : RespBody :=
  .errJson "Service not reachable at this moment"
    "All AI services failed to process the request. Please try again later."
    (some lastError) (some now)

/-- Per-request environment: injected oracles, configuration, clock, and the
request fields extracted from the platform event. -/
structure Env where
  probe : String → Int → Option Int
  transport : HReq → TransportResult
  cfg : Config
  now : Int
  path : String
  method : String
  headers : StrMap

/-- The path test of line 220: `path in ['/upload', '/download']`. -/
def gatedPath (path : String) : Bool := path == "/upload" || path == "/download"

/-- The failure description remembered at line 254. -/
def failDescOf (name : String) (st : Int) : String :=
  "Service " ++ name ++ " returned status " ++ toString st

/-- The failover loop of `lambda_handler` (lines 214-272), returning the
response, the final breaker map and the list of network events. -/
def routeLoop (e : Env) :
    List Service → CBMap → Option String → LambdaResponse × CBMap × List Ev
  | [], cbs, lastError =>
    ({ statusCode := 503, headers := corsHeaders,
       body := allFailedBody lastError e.now, isBase64Encoded := false },
     cbs, [])
  | s :: rest, cbs, lastError =>
    let hEv : List Ev :=
      if gatedPath e.path then [Ev.health (s.url ++ "/health") 5] else []
    if gatedPath e.path && !(health_check_service e.probe s) then
      let r := routeLoop e rest (record_failure cbs s.name e.now) lastError
      (r.1, r.2.1, hEv ++ r.2.2)
    else
      let fr := forward_request e.transport s e.path e.method e.headers
      if fr.1 < 400 then
        (successResponse fr.1 fr.2.1 fr.2.2.1, record_success cbs s.name,
         hEv ++ fr.2.2.2)
      else
        let r := routeLoop e rest (record_failure cbs s.name e.now)
          (some (failDescOf s.name fr.1))
        (r.1, r.2.1, hEv ++ fr.2.2.2 ++ r.2.2)

/-- The routing core of `lambda_handler` (lines 196-272): compute the
candidate list, answer 503 immediately when it is empty, and otherwise run
the failover loop with `last_error = None`. -/
def route (e : Env) (cbs : CBMap) : LambdaResponse × CBMap × List Ev :=
  let p := get_available_services e.cfg cbs e.now
  match p.1 with
  | [] =>
    ({ statusCode := 503, headers := corsHeaders,
       body := noServicesBody e.now, isBase64Encoded := false }, p.2, [])
  | _ :: _ => routeLoop e p.1 p.2 none

end Orig

namespace Fixed

/-!  Embedding of `src/lambda_function_fixed.py`. -/

/-- The explicit status strings of the fixed implementation; `opened`
stands for the Python string `'open'`. -/
inductive CBStatus where
  | closed
  | opened
  | halfOpen
deriving DecidableEq

/-- Circuit-breaker entry of `lambda_function_fixed.py`:
`{'status': str, 'failures': int, 'last_failure': float}`. -/
structure CBState where
  status : CBStatus
  failures : Int
  last_failure : Int
deriving DecidableEq

abbrev CBMap := List (String × CBState)

/-- The filtering loop of `ServiceManager.get_available_services`
(lines 19-48): skip disabled services; for an `open` entry, skip while the
recovery timeout has not elapsed, otherwise reset the entry to
`{'status': 'half-open', 'failures': 0, 'last_failure': 0}` and include the
service; other statuses and absent entries are included unchanged. -/
def availLoop (cfg : Config) (now : Int) :
    List Service → CBMap → List Service × CBMap
  | [], cbs => ([], cbs)
  | s :: rest, cbs =>
    if !(s.enabled.getD true) then availLoop cfg now rest cbs
    else
      match List.lookup s.name cbs with
      | some cd =>
        if cd.status == .opened then
          if now - cd.last_failure < recovery_timeout_of cfg then
            availLoop cfg now rest cbs
          else
            let cbs1 := setK cbs s.name ⟨.halfOpen, 0, 0⟩
            let q := availLoop cfg now rest cbs1
            (s :: q.1, q.2)
        else
          let q := availLoop cfg now rest cbs
          (s :: q.1, q.2)
      | none =>
        let q := availLoop cfg now rest cbs
        (s :: q.1, q.2)

/-- Embedding of `ServiceManager.get_available_services` (lines 19-51). -/
def get_available_services (cfg : Config) (cbs : CBMap) (now : Int) :
    List Service × CBMap :=
  let p := availLoop cfg now cfg.ai_services cbs
  (sortByPriority p.1, p.2)

/-- Embedding of `ServiceManager.record_success` (lines 53-62): only a
half-open entry is reset to `{'status': 'closed', 'failures': 0,
'last_failure': 0}`; any other state is left untouched. -/
def record_success (cbs : CBMap) (name : String) : CBMap :=
  match List.lookup name cbs with
  | some cd =>
    if cd.status == .halfOpen then setK cbs name ⟨.closed, 0, 0⟩ else cbs
  | none => cbs

/-- Embedding of `ServiceManager.record_failure` (lines 64-85): insert a
default closed entry when absent, increment `failures`, stamp
`last_failure = now`, and set the status to `open` when the incremented
count reaches `failure_threshold`. -/
def record_failure (cfg : Config) (cbs : CBMap) (name : String) (now : Int) :
    CBMap :=
  let cd := (List.lookup name cbs).getD ⟨.closed, 0, 0⟩
  let f := cd.failures + 1
  let st := if failure_threshold_of cfg ≤ f then CBStatus.opened else cd.status
  setK cbs name ⟨st, f, now⟩

/-- Body of the final "all attempts failed" 503 (lines 188-193). -/
def errAllFailed (lastError : String) (now : Int) : RespBody :=
  .errJson "Service not reachable at this moment"
    "All AI services failed to process the request. Please try again later."
    (some (some lastError)) (some now)

/-- Embedding of `ServiceManager.forward_request` (lines 87-204).  Both
load-balancing strategy branches of lines 100-110 select
`available_services[0]`, so the model takes the head directly.  The result
is `((status, headers, body), breaker map, network events)`.  Notes kept
faithful to the source: at most one fallback service is ever tried
(lines 152-185); a transport exception on the first service is caught by the
outer `except` (lines 195-204) and returns 503 without any fallback; in the
final 503 the `last_error` text names the first service but reports the
status of the latest response object, which is the fallback's response when
the fallback was reached and returned. -/
def forward_request (transport : HReq → TransportResult) (cfg : Config)
    (cbs0 : CBMap) (now : Int) (path method : String) (headers : StrMap) :
    (Int × StrMap × RespBody) × CBMap × List Ev :=
  let p := get_available_services cfg cbs0 now
  let cbs := p.2
  match p.1 with
  | [] =>
    ((503, [], .errJson "Service not reachable at this moment"
        "All AI services are currently unavailable. Please try again later."
        none (some now)), cbs, [])
  | s :: _ =>
    let n := s.name
    let tmo := s.timeout.getD (cfg.default_timeout.getD 30)
    let req : HReq := ⟨(asciiUpper method), s.url ++ path, headers, tmo⟩
    if !(Orig.methodSupported (asciiUpper method)) then
      ((400, [], .errJson "Bad request"
          ("Unsupported HTTP method: " ++ method) none none), cbs, [])
    else
      match transport req with
      | .ok st rh body =>
        if 200 ≤ st ∧ st < 300 then
          ((st, rh, .fromBackend body), record_success cbs n, [Ev.call req])
        else
          let cbs1 := record_failure cfg cbs n now
          if 1 < p.1.length then
            match p.1.filter (fun x => !(x.name == n)) with
            | [] =>
              ((503, [], errAllFailed (Orig.failDescOf n st) now), cbs1,
               [Ev.call req])
            | s2 :: _ =>
              let n2 := s2.name
              let tmo2 := s2.timeout.getD (cfg.default_timeout.getD 30)
              let req2 : HReq := ⟨(asciiUpper method), s2.url ++ path, headers, tmo2⟩
              match transport req2 with
              | .ok st2 rh2 body2 =>
                if 200 ≤ st2 ∧ st2 < 300 then
                  ((st2, rh2, .fromBackend body2), record_success cbs1 n2,
                   [Ev.call req, Ev.call req2])
                else
                  ((503, [], errAllFailed (Orig.failDescOf n st2) now),
                   record_failure cfg cbs1 n2 now, [Ev.call req, Ev.call req2])
              | _ =>
                ((503, [], errAllFailed (Orig.failDescOf n st) now),
                 record_failure cfg cbs1 n2 now, [Ev.call req, Ev.call req2])
          else
            ((503, [], errAllFailed (Orig.failDescOf n st) now), cbs1,
             [Ev.call req])
      | tr =>
        ((503, [], .errJson "Service not reachable at this moment"
            "All AI services failed to process the request. Please try again later."
            (some (some ("Service " ++ n ++ " error: " ++ tr.errText)))
            (some now)),
         record_failure cfg cbs n now, [Ev.call req])

end Fixed

/-! Vocabulary used by theorem statements: folds of the source operations
over a candidate list, describing the cumulative effect of the failover
loop of `lambda_function.py`. -/

/-- Breaker map after recording one failure for each listed service in
order, built from `Orig.record_failure`. -/
def recordAllFailures (now : Int) : Orig.CBMap → List Service → Orig.CBMap
  | cbs, [] => cbs
  | cbs, s :: rest => recordAllFailures now (Orig.record_failure cbs s.name now) rest

/-- The `last_error` value after the loop has tried and failed each listed
candidate in order, built from `Orig.forward_request`. -/
def lastFailDesc (e : Orig.Env) : Option String → List Service → Option String
  | le, [] => le
  | _, s :: rest =>
    lastFailDesc e
      (some (Orig.failDescOf s.name
        (Orig.forward_request e.transport s e.path e.method e.headers).1)) rest

/-- The network events of forwarding the request once to each listed
candidate in order. -/
def allCallEvents (e : Orig.Env) : List Service → List Ev
  | [] => []
  | s :: rest =>
    (Orig.forward_request e.transport s e.path e.method e.headers).2.2.2 ++
      allCallEvents e rest

/-- Headers carried by a traced network event (`none` for health probes). -/
def Ev.headersOf : Ev → Option StrMap
  | .health _ _ => none
  | .call r => some r.headers

/-- Invariant of the fixed implementation's breaker store: an `open` entry
always carries at least `failure_threshold` failures. -/
def fixedStatusInv (cfg : Config) (cbs : Fixed.CBMap) : Prop :=
  ∀ p ∈ cbs, p.2.status = Fixed.CBStatus.opened →
    failure_threshold_of cfg ≤ p.2.failures

/-! Concrete fixtures used by witnesses and counterexamples. -/

def svA : Service := ⟨"a", "http://a", some 1, some 30, some true⟩

def svB : Service := ⟨"b", "http://b", some 2, some 30, some true⟩

def svC : Service := ⟨"c", "http://c", some 3, some 30, some true⟩

def svD : Service := ⟨"d", "http://d", some 0, some 30, some false⟩

def svA2 : Service := ⟨"a2", "http://a2", some 1, some 30, some true⟩

def cfg1 : Config := ⟨[svA], none, none⟩

def cfg3 : Config := ⟨[svA, svB, svC], none, none⟩

def cfgDisabled : Config := ⟨[svD], none, none⟩

def cfgMix : Config := ⟨[svB, svD, svA, svA2], none, none⟩

def trOk200 : HReq → TransportResult :=
  fun _ => .ok 200 [("Content-Type", "text/plain")] "hi"

def trOk500 : HReq → TransportResult := fun _ => .ok 500 [] "err"

def trOk302 : HReq → TransportResult := fun _ => .ok 302 [] "moved"

def trBoom : HReq → TransportResult := fun _ => .exc "boom"

def trConn : HReq → TransportResult :=
  fun _ => .ok 200 [("Connection", "close"), ("Content-Length", "9")] "x"

def probeNone : String → Int → Option Int := fun _ _ => none

def probe503 : String → Int → Option Int := fun _ _ => some 503

def envDis : Orig.Env := ⟨probeNone, trOk200, cfgDisabled, 0, "/x", "GET", []⟩

def envUp : Orig.Env := ⟨probe503, trOk200, cfg1, 0, "/upload", "GET", []⟩

def envOk : Orig.Env := ⟨probeNone, trOk200, cfg1, 0, "/x", "GET", []⟩

def env500 : Orig.Env := ⟨probeNone, trOk500, cfg3, 0, "/x", "GET", []⟩

/-! Helper lemmas about the association-list map and the stable sort. -/

theorem lookup_cons_self {α : Type} (k : String) (v : α)
    (rest : List (String × α)) : List.lookup k ((k, v) :: rest) = some v := by
  simp [List.lookup]

theorem lookup_cons_ne {α : Type} (k k1 : String) (v1 : α)
    (rest : List (String × α)) (h : k ≠ k1) :
    List.lookup k ((k1, v1) :: rest) = List.lookup k rest := by
  have hb : (k == k1) = false := beq_eq_false_iff_ne.mpr h
  simp [List.lookup, hb]

theorem lookup_setK_self {α : Type} (m : List (String × α)) (k : String)
    (v : α) : List.lookup k (setK m k v) = some v := by
  induction m with
  | nil => simp [setK]
  | cons p rest ih =>
    obtain ⟨k1, v1⟩ := p
    by_cases h : k1 = k
    · subst h
      simp [setK, lookup_cons_self]
    · have hb : (k1 == k) = false := beq_eq_false_iff_ne.mpr h
      rw [setK, if_neg (by simp [hb]), lookup_cons_ne _ _ _ _ (Ne.symm h), ih]

theorem lookup_setK_ne {α : Type} (m : List (String × α)) (k k' : String)
    (v : α) (hne : k' ≠ k) :
    List.lookup k' (setK m k v) = List.lookup k' m := by
  induction m with
  | nil => simp [setK, lookup_cons_ne _ _ _ _ hne]
  | cons p rest ih =>
    obtain ⟨k1, v1⟩ := p
    by_cases h : k1 = k
    · subst h
      rw [setK, if_pos (by simp), lookup_cons_ne _ _ _ _ hne,
        lookup_cons_ne _ _ _ _ hne]
    · have hb : (k1 == k) = false := beq_eq_false_iff_ne.mpr h
      rw [setK, if_neg (by simp [hb])]
      by_cases hk' : k' = k1
      · subst hk'
        rw [lookup_cons_self, lookup_cons_self]
      · rw [lookup_cons_ne _ _ _ _ hk', lookup_cons_ne _ _ _ _ hk', ih]

theorem setK_self {α : Type} (m : List (String × α)) (k : String) (v : α)
    (h : List.lookup k m = some v) : setK m k v = m := by
  induction m with
  | nil => simp at h
  | cons p rest ih =>
    obtain ⟨k1, v1⟩ := p
    by_cases hk : k1 = k
    · subst hk
      rw [lookup_cons_self] at h
      cases h
      rw [setK, if_pos (by simp)]
    · have hb : (k1 == k) = false := beq_eq_false_iff_ne.mpr hk
      rw [lookup_cons_ne _ _ _ _ (Ne.symm hk)] at h
      rw [setK, if_neg (by simp [hb]), ih h]

theorem mem_setK {α : Type} (m : List (String × α)) (k : String) (v : α)
    (p : String × α) (h : p ∈ setK m k v) : p ∈ m ∨ p = (k, v) := by
  induction m with
  | nil =>
    simp [setK] at h
    exact Or.inr h
  | cons q rest ih =>
    obtain ⟨k1, v1⟩ := q
    by_cases hk : k1 = k
    · subst hk
      simp [setK] at h
      rcases h with h | h
      · exact Or.inr (by simp [h])
      · exact Or.inl (by simp [h])
    · simp [setK, hk] at h
      rcases h with h | h
      · exact Or.inl (by simp [h])
      · rcases ih h with h' | h'
        · exact Or.inl (by simp [h'])
        · exact Or.inr h'

theorem mem_insertByPriority (x z : Service) (l : List Service) :
    z ∈ insertByPriority x l ↔ z = x ∨ z ∈ l := by
  induction l with
  | nil => simp [insertByPriority]
  | cons y ys ih =>
    by_cases h : prioKey x ≤ prioKey y
    · simp [insertByPriority, h]
    · simp [insertByPriority, h, ih]
      tauto

theorem pairwise_insertByPriority (x : Service) (l : List Service)
    (h : l.Pairwise (fun a b => prioKey a ≤ prioKey b)) :
    (insertByPriority x l).Pairwise (fun a b => prioKey a ≤ prioKey b) := by
  induction l with
  | nil => simp [insertByPriority]
  | cons y ys ih =>
    rw [List.pairwise_cons] at h
    by_cases hxy : prioKey x ≤ prioKey y
    · rw [insertByPriority]
      rw [if_pos hxy]
      rw [List.pairwise_cons]
      constructor
      · intro z hz
        rcases List.mem_cons.mp hz with h' | h'
        · subst h'
          exact hxy
        · exact le_trans hxy (h.1 z h')
      · rw [List.pairwise_cons]
        exact h
    · rw [insertByPriority]
      rw [if_neg hxy]
      rw [List.pairwise_cons]
      constructor
      · intro z hz
        rcases (mem_insertByPriority x z ys).mp hz with h' | h'
        · subst h'
          omega
        · exact h.1 z h'
      · exact ih h.2

theorem filter_insertByPriority (x : Service) (l : List Service) (p : Int) :
    (insertByPriority x l).filter (fun s => prioKey s == p) =
      (x :: l).filter (fun s => prioKey s == p) := by
  induction l with
  | nil => rfl
  | cons y ys ih =>
    by_cases hxy : prioKey x ≤ prioKey y
    · rw [insertByPriority, if_pos hxy]
    · rw [insertByPriority, if_neg hxy]
      by_cases hy : prioKey y = p
      · have bx : (prioKey x == p) = false := by
          rw [beq_eq_false_iff_ne]
          omega
        have by' : (prioKey y == p) = true := beq_iff_eq.mpr hy
        simp only [List.filter_cons, bx] at ih
        simp only [Bool.false_eq_true, if_false] at ih
        simp [List.filter_cons, bx, by', ih]
      · have by' : (prioKey y == p) = false := beq_eq_false_iff_ne.mpr hy
        simp only [List.filter_cons, by'] at ih ⊢
        simp only [Bool.false_eq_true, if_false] at ih ⊢
        rw [ih]

theorem filter_sortByPriority (l : List Service) (p : Int) :
    (sortByPriority l).filter (fun s => prioKey s == p) =
      l.filter (fun s => prioKey s == p) := by
  induction l with
  | nil => rfl
  | cons x xs ih =>
    rw [sortByPriority, filter_insertByPriority]
    simp only [List.filter_cons]
    rw [ih]

theorem pairwise_sortByPriority (l : List Service) :
    (sortByPriority l).Pairwise (fun a b => prioKey a ≤ prioKey b) := by
  induction l with
  | nil => simp [sortByPriority]
  | cons x xs ih => exact pairwise_insertByPriority x _ ih

theorem mem_sortByPriority (z : Service) (l : List Service) :
    z ∈ sortByPriority l ↔ z ∈ l := by
  induction l with
  | nil => simp [sortByPriority]
  | cons x xs ih =>
    rw [sortByPriority, mem_insertByPriority]
    simp [ih]

theorem orig_availLoop_sublist (cfg : Config) (now : Int) (l : List Service) :
    ∀ cbs : Orig.CBMap, (Orig.availLoop cfg now l cbs).1.Sublist l := by
  induction l with
  | nil =>
    intro cbs
    simp [Orig.availLoop]
  | cons s rest ih =>
    intro cbs
    rw [Orig.availLoop]
    dsimp only
    split
    · exact (ih cbs).cons s
    · split
      · exact (ih _).cons s
      · exact (ih _).cons₂ s

theorem orig_availLoop_enabled (cfg : Config) (now : Int) (l : List Service) :
    ∀ (cbs : Orig.CBMap) (s : Service), s ∈ (Orig.availLoop cfg now l cbs).1 →
      s.enabled.getD true = true := by
  induction l with
  | nil =>
    intro cbs s h
    simp [Orig.availLoop] at h
  | cons t rest ih =>
    intro cbs s h
    rw [Orig.availLoop] at h
    dsimp only at h
    split at h
    · exact ih cbs s h
    · split at h
      · exact ih _ s h
      · next he _ =>
        rcases List.mem_cons.mp h with h' | h'
        · subst h'
          simpa using he
        · exact ih _ s h'

theorem fixed_availLoop_sublist (cfg : Config) (now : Int) (l : List Service) :
    ∀ cbs : Fixed.CBMap, (Fixed.availLoop cfg now l cbs).1.Sublist l := by
  induction l with
  | nil =>
    intro cbs
    simp [Fixed.availLoop]
  | cons s rest ih =>
    intro cbs
    rw [Fixed.availLoop]
    dsimp only
    split
    · exact (ih cbs).cons s
    · split
      · split
        · split
          · exact (ih _).cons s
          · exact (ih _).cons₂ s
        · exact (ih _).cons₂ s
      · exact (ih _).cons₂ s

theorem fixed_availLoop_enabled (cfg : Config) (now : Int) (l : List Service) :
    ∀ (cbs : Fixed.CBMap) (s : Service),
      s ∈ (Fixed.availLoop cfg now l cbs).1 → s.enabled.getD true = true := by
  induction l with
  | nil =>
    intro cbs s h
    simp [Fixed.availLoop] at h
  | cons t rest ih =>
    intro cbs s h
    rw [Fixed.availLoop] at h
    dsimp only at h
    split at h
    · exact ih cbs s h
    · next he =>
      split at h
      · split at h
        · split at h
          · exact ih _ s h
          · rcases List.mem_cons.mp h with h' | h'
            · subst h'
              simpa using he
            · exact ih _ s h'
        · rcases List.mem_cons.mp h with h' | h'
          · subst h'
            simpa using he
          · exact ih _ s h'
      · rcases List.mem_cons.mp h with h' | h'
        · subst h'
          simpa using he
        · exact ih _ s h'

theorem orig_isopen_within (cfg : Config) (cbs : Orig.CBMap) (name : String)
    (now : Int)
    (hth : failure_threshold_of cfg ≤
      ((List.lookup name cbs).getD ⟨0, 0⟩).failures)
    (hwin : now - ((List.lookup name cbs).getD ⟨0, 0⟩).last_failure <
      recovery_timeout_of cfg) :
    Orig.is_circuit_breaker_open cfg cbs name now = (true, cbs) := by
  rw [Orig.is_circuit_breaker_open]
  rw [if_pos hth, if_pos hwin]

theorem orig_isopen_elapsed (cfg : Config) (cbs : Orig.CBMap) (name : String)
    (now : Int)
    (hth : failure_threshold_of cfg ≤
      ((List.lookup name cbs).getD ⟨0, 0⟩).failures)
    (hel : recovery_timeout_of cfg ≤
      now - ((List.lookup name cbs).getD ⟨0, 0⟩).last_failure) :
    Orig.is_circuit_breaker_open cfg cbs name now =
      (false, setK cbs name ⟨0, 0⟩) := by
  rw [Orig.is_circuit_breaker_open]
  have hnw : ¬ (now - ((List.lookup name cbs).getD ⟨0, 0⟩).last_failure <
      recovery_timeout_of cfg) := by omega
  rw [if_pos hth, if_neg hnw]

/-- C8: for every request arriving when the candidate list is empty, both
implementations return status 503 with a body whose `error` field is
"Service not reachable at this moment", and perform zero network calls
(the event trace is empty). -/
theorem c8_empty_candidates_503 :
    (∀ (e : Orig.Env) (cbs : Orig.CBMap),
      (Orig.get_available_services e.cfg cbs e.now).1 = [] →
      Orig.route e cbs =
        ({ statusCode := 503, headers := Orig.corsHeaders,
           body := Orig.noServicesBody e.now, isBase64Encoded := false },
         (Orig.get_available_services e.cfg cbs e.now).2, []))
    ∧ (∀ (transport : HReq → TransportResult) (cfg : Config)
        (cbs0 : Fixed.CBMap) (now : Int) (path method : String)
        (headers : StrMap),
      (Fixed.get_available_services cfg cbs0 now).1 = [] →
      Fixed.forward_request transport cfg cbs0 now path method headers =
        ((503, [], .errJson "Service not reachable at this moment"
            "All AI services are currently unavailable. Please try again later."
            none (some now)),
         (Fixed.get_available_services cfg cbs0 now).2, [])) := by
  constructor
  · intro e cbs h
    rw [Orig.route]
    rw [h]
  · intro transport cfg cbs0 now path method headers h
    rw [Fixed.forward_request]
    rw [h]

/-- C8 witness: with the single disabled backend configuration, the
original implementation answers 503 with the structured body and an empty
event trace. -/
theorem c8_witness :
    Orig.route envDis [] =
      ({ statusCode := 503, headers := Orig.corsHeaders,
         body := Orig.noServicesBody 0, isBase64Encoded := false },
       ([] : Orig.CBMap), ([] : List Ev)) := by
  rw [c8_empty_candidates_503.1 envDis [] (by decide)]
  decide

/-- C10: in `lambda_function.py`, when the path is exactly `/upload` or
`/download`, a candidate is first probed with `GET {url}/health` under a
5-second timeout; the probe succeeds exactly when it returns status 200,
and when it does not, a breaker failure is recorded for the candidate and
the loop moves on without forwarding the request to it (the candidate
contributes only the health event to the trace). -/
theorem c10_health_gate :
    (∀ (probe : String → Int → Option Int) (s : Service),
      Orig.health_check_service probe s = true ↔
        probe (s.url ++ "/health") 5 = some 200)
    ∧ (∀ (e : Orig.Env) (s : Service) (rest : List Service)
        (cbs : Orig.CBMap) (le : Option String),
      Orig.gatedPath e.path = true →
      Orig.health_check_service e.probe s = false →
      Orig.routeLoop e (s :: rest) cbs le =
        ((Orig.routeLoop e rest (Orig.record_failure cbs s.name e.now) le).1,
         (Orig.routeLoop e rest (Orig.record_failure cbs s.name e.now) le).2.1,
         Ev.health (s.url ++ "/health") 5 ::
           (Orig.routeLoop e rest
             (Orig.record_failure cbs s.name e.now) le).2.2)) := by
  constructor
  · intro probe s
    cases hp : probe (s.url ++ "/health") 5 with
    | none => simp [Orig.health_check_service, hp]
    | some code => simp [Orig.health_check_service, hp, beq_iff_eq]
  · intro e s rest cbs le hg hh
    rw [Orig.routeLoop]
    dsimp only
    rw [hg, hh]
    simp

/-- C10 witness: one enabled backend, path `/upload`, a probe answering
503: the loop records one failure for the backend and the trace holds only
the health event, never a forwarded request. -/
theorem c10_witness :
    Orig.routeLoop envUp [svA] [] none =
      ({ statusCode := 503, headers := Orig.corsHeaders,
         body := Orig.allFailedBody none 0, isBase64Encoded := false },
       [("a", ⟨1, 0⟩)], [Ev.health "http://a/health" 5]) := by
  rw [c10_health_gate.2 envUp svA [] [] none (by decide) (by decide)]
  decide

/-- C7 counterexample: in `lambda_function_fixed.py`, `record_success` on a
closed backend with 3 accumulated failures leaves the entry untouched; the
failure count stays 3 instead of being reset to 0 as the claim states. -/
theorem c7_counterexample :
    Fixed.record_success [("a", ⟨.closed, 3, 1⟩)] "a" =
      [("a", ⟨.closed, 3, 1⟩)] ∧
    ¬ ((3 : Int) = 0) := by
  decide

/-- C7 amended: in `lambda_function.py`, `record_success` on a backend with
a breaker entry resets its failure count to 0 (keeping `last_failure`), and
afterwards the breaker reads closed whenever `failure_threshold` is
positive; with no entry it changes nothing.  In `lambda_function_fixed.py`,
`record_success` leaves a closed backend's entry entirely unchanged (it only
acts on half-open entries).  In both implementations, `record_success` on an
already-closed backend with zero failures is an observable no-op. -/
theorem c7_amended :
    (∀ (cbs : Orig.CBMap) (name : String) (st : Orig.CBState),
      List.lookup name cbs = some st →
      Orig.record_success cbs name = setK cbs name ⟨0, st.last_failure⟩)
    ∧ (∀ (cbs : Orig.CBMap) (name : String),
      List.lookup name cbs = none → Orig.record_success cbs name = cbs)
    ∧ (∀ (cfg : Config) (cbs : Orig.CBMap) (name : String) (now : Int),
      0 < failure_threshold_of cfg →
      (Orig.is_circuit_breaker_open cfg (Orig.record_success cbs name)
        name now).1 = false)
    ∧ (∀ (cbs : Fixed.CBMap) (name : String) (cd : Fixed.CBState),
      List.lookup name cbs = some cd → cd.status = .closed →
      Fixed.record_success cbs name = cbs)
    ∧ (∀ (cbs : Orig.CBMap) (name : String) (lf : Int),
      List.lookup name cbs = some ⟨0, lf⟩ →
      Orig.record_success cbs name = cbs) := by
  refine ⟨?_, ?_, ?_, ?_, ?_⟩
  · intro cbs name st h
    rw [Orig.record_success, h]
  · intro cbs name h
    rw [Orig.record_success, h]
  · intro cfg cbs name now hth
    rw [Orig.is_circuit_breaker_open]
    cases h : List.lookup name cbs with
    | none =>
      rw [Orig.record_success, h]
      rw [h]
      simp only [Option.getD_none]
      rw [if_neg (by omega)]
    | some st =>
      rw [Orig.record_success, h, lookup_setK_self]
      simp only [Option.getD_some]
      rw [if_neg (by omega)]
  · intro cbs name cd h hcl
    rw [Fixed.record_success, h]
    simp [hcl]
  · intro cbs name lf h
    rw [Orig.record_success, h]
    exact setK_self cbs name ⟨0, lf⟩ h

/-- C7 witness: instantiating the amended statement with an entry holding 2
failures shows the original implementation's reset and, at a zero-failure
closed entry, the no-op. -/
theorem c7_witness :
    Orig.record_success [("a", (⟨2, 9⟩ : Orig.CBState))] "a" =
      setK [("a", (⟨2, 9⟩ : Orig.CBState))] "a" ⟨0, 9⟩ ∧
    Orig.record_success [("a", (⟨0, 9⟩ : Orig.CBState))] "a" =
      [("a", (⟨0, 9⟩ : Orig.CBState))] :=
  ⟨c7_amended.1 [("a", ⟨2, 9⟩)] "a" ⟨2, 9⟩ (by decide),
   c7_amended.2.2.2.2 [("a", ⟨0, 9⟩)] "a" 9 (by decide)⟩

/-- C5 counterexample: with the default `failure_threshold` of 5, recording
a single failure for a half-open backend in `lambda_function_fixed.py`
leaves the status `half-open` (it does not return to `open`), and the
backend is still returned by `get_available_services` immediately
afterwards — no recovery window has to elapse. -/
theorem c5_counterexample :
    Fixed.record_failure cfg1 [("a", ⟨.halfOpen, 0, 0⟩)] "a" 7 =
      [("a", ⟨.halfOpen, 1, 7⟩)] ∧
    (Fixed.get_available_services cfg1 [("a", ⟨.halfOpen, 1, 7⟩)] 8).1 =
      [svA] := by
  decide

/-- C5 amended: for a half-open backend in `lambda_function_fixed.py`, a
single success resets the entry to closed with zero failures; a single
failure increments the failure count and stamps a new `last_failure_time`,
but sets the status to `open` only when the incremented count reaches
`failure_threshold` — otherwise the status stays `half-open` and the
backend remains selectable. -/
theorem c5_amended :
    ∀ (cfg : Config) (cbs : Fixed.CBMap) (name : String) (now : Int)
      (cd : Fixed.CBState),
      List.lookup name cbs = some cd → cd.status = .halfOpen →
      Fixed.record_success cbs name = setK cbs name ⟨.closed, 0, 0⟩
      ∧ Fixed.record_failure cfg cbs name now =
          setK cbs name
            ⟨if failure_threshold_of cfg ≤ cd.failures + 1 then .opened
              else .halfOpen, cd.failures + 1, now⟩ := by
  intro cfg cbs name now cd h hho
  constructor
  · rw [Fixed.record_success, h]
    simp [hho]
  · rw [Fixed.record_failure, h]
    simp only [Option.getD_some]
    rw [hho]

/-- C5 witness: a half-open entry with 4 failures under the default
threshold of 5: one success closes it, one failure reaches the threshold
and reopens it. -/
theorem c5_witness :
    Fixed.record_success [("a", (⟨.halfOpen, 4, 3⟩ : Fixed.CBState))] "a" =
      setK [("a", (⟨.halfOpen, 4, 3⟩ : Fixed.CBState))] "a" ⟨.closed, 0, 0⟩ ∧
    Fixed.record_failure cfg1 [("a", (⟨.halfOpen, 4, 3⟩ : Fixed.CBState))]
        "a" 9 =
      setK [("a", (⟨.halfOpen, 4, 3⟩ : Fixed.CBState))] "a"
        ⟨if failure_threshold_of cfg1 ≤ (4 : Int) + 1 then .opened
          else .halfOpen, (4 : Int) + 1, 9⟩ :=
  c5_amended cfg1 [("a", ⟨.halfOpen, 4, 3⟩)] "a" 9 ⟨.halfOpen, 4, 3⟩
    (by decide) (by decide)

/-- C4 counterexample: at the instant the recovery window elapses, both
implementations RESET the failure count to 0 rather than leaving
`consecutive_failures` unchanged as the claim states: the original resets
the entry to `{'failures': 0, 'last_failure': 0}` inside
`_is_circuit_breaker_open`, and the fixed implementation writes
`{'status': 'half-open', 'failures': 0, 'last_failure': 0}` inside
`get_available_services` (5 failures before, 0 after). -/
theorem c4_counterexample :
    Orig.is_circuit_breaker_open cfg1 [("a", ⟨5, 0⟩)] "a" 60 =
      (false, [("a", ⟨0, 0⟩)]) ∧
    (Fixed.get_available_services cfg1 [("a", ⟨.opened, 5, 0⟩)] 60).1 =
      [svA] ∧
    (Fixed.get_available_services cfg1 [("a", ⟨.opened, 5, 0⟩)] 60).2 =
      [("a", ⟨.halfOpen, 0, 0⟩)] ∧
    ¬ ((0 : Int) = 5) := by
  decide

/-- C4 amended: an open backend (failure count at or above the threshold,
respectively explicit `open` status) is excluded from the candidate list
while `now - last_failure_time < recovery_timeout`, and is selectable again
as soon as the window has elapsed, without any explicit transition call —
but at that read the entry's failure count is RESET to 0 (and its
`last_failure_time` to 0), not kept until the next recorded outcome. -/
theorem c4_amended :
    (∀ (cfg : Config) (cbs : Orig.CBMap) (name : String) (now : Int),
      failure_threshold_of cfg ≤
        ((List.lookup name cbs).getD ⟨0, 0⟩).failures →
      (now - ((List.lookup name cbs).getD ⟨0, 0⟩).last_failure <
          recovery_timeout_of cfg →
        Orig.is_circuit_breaker_open cfg cbs name now = (true, cbs))
      ∧ (recovery_timeout_of cfg ≤
          now - ((List.lookup name cbs).getD ⟨0, 0⟩).last_failure →
        Orig.is_circuit_breaker_open cfg cbs name now =
          (false, setK cbs name ⟨0, 0⟩)))
    ∧ (∀ (cfg : Config) (s : Service) (cbs : Orig.CBMap) (now : Int),
      cfg.ai_services = [s] → s.enabled.getD true = true →
      failure_threshold_of cfg ≤
        ((List.lookup s.name cbs).getD ⟨0, 0⟩).failures →
      (now - ((List.lookup s.name cbs).getD ⟨0, 0⟩).last_failure <
          recovery_timeout_of cfg →
        (Orig.get_available_services cfg cbs now).1 = [])
      ∧ (recovery_timeout_of cfg ≤
          now - ((List.lookup s.name cbs).getD ⟨0, 0⟩).last_failure →
        (Orig.get_available_services cfg cbs now).1 = [s]
        ∧ List.lookup s.name (Orig.get_available_services cfg cbs now).2 =
            some ⟨0, 0⟩))
    ∧ (∀ (cfg : Config) (s : Service) (cbs : Fixed.CBMap) (now : Int)
        (cd : Fixed.CBState),
      cfg.ai_services = [s] → s.enabled.getD true = true →
      List.lookup s.name cbs = some cd → cd.status = .opened →
      (now - cd.last_failure < recovery_timeout_of cfg →
        (Fixed.get_available_services cfg cbs now).1 = [])
      ∧ (recovery_timeout_of cfg ≤ now - cd.last_failure →
        (Fixed.get_available_services cfg cbs now).1 = [s]
        ∧ List.lookup s.name (Fixed.get_available_services cfg cbs now).2 =
            some ⟨.halfOpen, 0, 0⟩)) := by
  refine ⟨?_, ?_, ?_⟩
  · intro cfg cbs name now hth
    exact ⟨fun hwin => orig_isopen_within cfg cbs name now hth hwin,
           fun hel => orig_isopen_elapsed cfg cbs name now hth hel⟩
  · intro cfg s cbs now hsvc he hth
    constructor
    · intro hwin
      rw [Orig.get_available_services, hsvc]
      rw [Orig.availLoop]
      dsimp only
      rw [he]
      rw [orig_isopen_within cfg cbs s.name now hth hwin]
      simp [Orig.availLoop, sortByPriority]
    · intro hel
      rw [Orig.get_available_services, hsvc]
      rw [Orig.availLoop]
      dsimp only
      rw [he]
      rw [orig_isopen_elapsed cfg cbs s.name now hth hel]
      simp only [Bool.not_true, Bool.false_eq_true, if_false]
      rw [Orig.availLoop]
      exact ⟨rfl, lookup_setK_self cbs s.name ⟨0, 0⟩⟩
  · intro cfg s cbs now cd hsvc he hl hop
    constructor
    · intro hwin
      rw [Fixed.get_available_services, hsvc]
      rw [Fixed.availLoop]
      dsimp only
      rw [he, hl]
      simp only [hop, beq_self_eq_true, if_true]
      rw [if_pos hwin]
      simp [Fixed.availLoop, sortByPriority]
    · intro hel
      rw [Fixed.get_available_services, hsvc]
      rw [Fixed.availLoop]
      dsimp only
      rw [he, hl]
      simp only [hop, beq_self_eq_true, if_true]
      have hnw : ¬ (now - cd.last_failure < recovery_timeout_of cfg) := by
        omega
      rw [if_neg hnw]
      rw [Fixed.availLoop]
      exact ⟨rfl, lookup_setK_self cbs s.name ⟨.halfOpen, 0, 0⟩⟩

/-- C4 witness: one backend with 5 failures recorded at time 0 under the
default thresholds: it is absent from the candidate list at time 10 and
present again at time 60. -/
theorem c4_witness :
    (Orig.get_available_services cfg1 [("a", (⟨5, 0⟩ : Orig.CBState))]
        10).1 = [] ∧
    (Orig.get_available_services cfg1 [("a", (⟨5, 0⟩ : Orig.CBState))]
        60).1 = [svA] := by
  constructor
  · exact (c4_amended.2.1 cfg1 svA [("a", ⟨5, 0⟩)] 10 (by decide) (by decide)
      (by decide)).1 (by decide)
  · exact ((c4_amended.2.1 cfg1 svA [("a", ⟨5, 0⟩)] 60 (by decide) (by decide)
      (by decide)).2 (by decide)).1

/-- C9 counterexample: `lambda_function.py` does NOT strip
`Transfer-Encoding` from the forwarded request, and does NOT strip `Host` or
`Content-Length` from the returned response; `lambda_function_fixed.py`
strips nothing at all — its forwarded request still carries `Host` and
`Connection`, and its returned response still carries `Connection` and
`Content-Length`. -/
theorem c9_counterexample :
    Orig.forwardedHeaders [("Transfer-Encoding", "chunked")] =
      [("Transfer-Encoding", "chunked")] ∧
    Orig.filteredResponseHeaders [("Host", "h"), ("Content-Length", "3")] =
      [("Host", "h"), ("Content-Length", "3")] ∧
    (Fixed.forward_request trConn cfg1 [] 0 "/x" "GET"
        [("Host", "x"), ("Connection", "keep-alive")]).2.2 =
      [Ev.call ⟨"GET", "http://a/x",
        [("Host", "x"), ("Connection", "keep-alive")], 30⟩] ∧
    (Fixed.forward_request trConn cfg1 [] 0 "/x" "GET"
        [("Host", "x"), ("Connection", "keep-alive")]).1.2.1 =
      [("Connection", "close"), ("Content-Length", "9")] := by
  decide

/-- C9 amended: in `lambda_function.py`, the forwarded request drops exactly
the headers named `host`, `connection`, `content-length` (case-insensitive)
— `Transfer-Encoding` passes through — and the returned response drops
exactly `connection` and `transfer-encoding` — `Host` and `Content-Length`
pass through; every other header passes unchanged, and the transport is
invoked with exactly the filtered headers.  In `lambda_function_fixed.py`,
both the forwarded request and the returned response keep every header
unchanged. -/
theorem c9_amended :
    (∀ (k v : String) (hs : StrMap),
      (k, v) ∈ Orig.forwardedHeaders hs ↔
        (k, v) ∈ hs ∧ Orig.reqHeaderDrop.contains (asciiLower k) = false)
    ∧ (∀ (k v : String) (hs : StrMap),
      (k, v) ∈ Orig.filteredResponseHeaders hs ↔
        (k, v) ∈ hs ∧ Orig.respHeaderDrop.contains (asciiLower k) = false)
    ∧ (∀ (transport : HReq → TransportResult) (s : Service)
        (path method : String) (headers : StrMap),
      Orig.methodSupported method = true →
      (Orig.forward_request transport s path method headers).2.2.2 =
        [Ev.call ⟨method, s.url ++ path, Orig.forwardedHeaders headers,
          s.timeout.getD 300⟩])
    ∧ (∀ (transport : HReq → TransportResult) (s : Service)
        (path method : String) (headers : StrMap) (st : Int) (rh : StrMap)
        (body : String),
      Orig.methodSupported method = true →
      transport ⟨method, s.url ++ path, Orig.forwardedHeaders headers,
        s.timeout.getD 300⟩ = .ok st rh body →
      (Orig.forward_request transport s path method headers).2.1 =
        Orig.filteredResponseHeaders rh)
    ∧ (∀ (transport : HReq → TransportResult) (cfg : Config)
        (cbs0 : Fixed.CBMap) (now : Int) (path method : String)
        (headers : StrMap) (ev : Ev),
      ev ∈ (Fixed.forward_request transport cfg cbs0 now path method
        headers).2.2 →
      Ev.headersOf ev = some headers)
    ∧ (∀ (transport : HReq → TransportResult) (cfg : Config)
        (cbs0 : Fixed.CBMap) (now : Int) (path method : String)
        (headers : StrMap) (s : Service) (restA : List Service) (st : Int)
        (rh : StrMap) (body : String),
      (Fixed.get_available_services cfg cbs0 now).1 = s :: restA →
      Orig.methodSupported (asciiUpper method) = true →
      transport ⟨(asciiUpper method), s.url ++ path, headers,
        s.timeout.getD (cfg.default_timeout.getD 30)⟩ = .ok st rh body →
      200 ≤ st → st < 300 →
      (Fixed.forward_request transport cfg cbs0 now path method
        headers).1.2.1 = rh) := by
  refine ⟨?_, ?_, ?_, ?_, ?_, ?_⟩
  · intro k v hs
    simp [Orig.forwardedHeaders, List.mem_filter]
  · intro k v hs
    simp [Orig.filteredResponseHeaders, List.mem_filter]
  · intro transport s path method headers hm
    rw [Orig.forward_request]
    rw [if_pos hm]
    cases htr : transport ⟨method, s.url ++ path,
        Orig.forwardedHeaders headers, s.timeout.getD 300⟩ <;> rfl
  · intro transport s path method headers st rh body hm htr
    rw [Orig.forward_request]
    rw [if_pos hm, htr]
  · intro transport cfg cbs0 now path method headers ev hev
    rw [Fixed.forward_request] at hev
    repeat' (first | split at hev | dsimp only at hev)
    all_goals
      simp only [List.mem_cons, List.not_mem_nil, or_false] at hev
    all_goals
      first
        | exact hev.elim
        | (rcases hev with rfl | rfl <;> rfl)
  · intro transport cfg cbs0 now path method headers s restA st rh body hav
      hm htr h2 h3
    rw [Fixed.forward_request]
    rw [hav]
    simp only [hm, Bool.not_true, Bool.false_eq_true, if_false]
    rw [htr]
    dsimp only
    rw [if_pos ⟨h2, h3⟩]

/-- C9 witness: forwarding a GET with headers `Host` and `X-Custom` calls
the transport with exactly the filtered header list (the `Host` entry
removed, `X-Custom` kept). -/
theorem c9_witness :
    (Orig.forward_request trOk200 svA "/x" "GET"
        [("Host", "h"), ("X-Custom", "1")]).2.2.2 =
      [Ev.call ⟨"GET", "http://a/x",
        Orig.forwardedHeaders [("Host", "h"), ("X-Custom", "1")], 30⟩] :=
  c9_amended.2.2.1 trOk200 svA "/x" "GET" [("Host", "h"), ("X-Custom", "1")]
    (by decide)

/-- C1 counterexample: `lambda_function_fixed.py` treats only `[200, 300)`
as success.  A backend answering 302 — which lies in the claimed success
range `[200, 400)` — gets a breaker FAILURE recorded and the router answers
a synthetic 503 instead of returning the backend's response. -/
theorem c1_counterexample :
    ((200 : Int) ≤ 302 ∧ (302 : Int) < 400) ∧
    (Fixed.forward_request trOk302 cfg1 [] 0 "/x" "GET" []).1.1 = 503 ∧
    List.lookup "a" (Fixed.forward_request trOk302 cfg1 [] 0 "/x" "GET"
      []).2.1 = some ⟨.closed, 1, 0⟩ := by
  decide

/-- C1 amended: in `lambda_function.py` a forwarded status below 400 (in
particular any status in `[200, 400)`) makes the loop record a success for
that candidate and return its response immediately, with no event for any
later candidate; in `lambda_function_fixed.py` the same immediate-success
behaviour holds exactly for statuses in `[200, 300)`, while a status in
`[300, 400)` is treated as a failure (breaker failure recorded). -/
theorem c1_amended :
    (∀ (e : Orig.Env) (s : Service) (rest : List Service) (cbs : Orig.CBMap)
        (le : Option String),
      (Orig.gatedPath e.path && !(Orig.health_check_service e.probe s)) =
        false →
      (Orig.forward_request e.transport s e.path e.method e.headers).1 <
        400 →
      Orig.routeLoop e (s :: rest) cbs le =
        (Orig.successResponse
          (Orig.forward_request e.transport s e.path e.method e.headers).1
          (Orig.forward_request e.transport s e.path e.method
            e.headers).2.1
          (Orig.forward_request e.transport s e.path e.method
            e.headers).2.2.1,
         Orig.record_success cbs s.name,
         (if Orig.gatedPath e.path then [Ev.health (s.url ++ "/health") 5]
           else []) ++
           (Orig.forward_request e.transport s e.path e.method
             e.headers).2.2.2))
    ∧ (∀ (transport : HReq → TransportResult) (cfg : Config)
        (cbs0 : Fixed.CBMap) (now : Int) (path method : String)
        (headers : StrMap) (s : Service) (restA : List Service) (st : Int)
        (rh : StrMap) (body : String),
      (Fixed.get_available_services cfg cbs0 now).1 = s :: restA →
      Orig.methodSupported (asciiUpper method) = true →
      transport ⟨asciiUpper method, s.url ++ path, headers,
        s.timeout.getD (cfg.default_timeout.getD 30)⟩ = .ok st rh body →
      200 ≤ st → st < 300 →
      Fixed.forward_request transport cfg cbs0 now path method headers =
        ((st, rh, .fromBackend body),
         Fixed.record_success (Fixed.get_available_services cfg cbs0 now).2
           s.name,
         [Ev.call ⟨asciiUpper method, s.url ++ path, headers,
           s.timeout.getD (cfg.default_timeout.getD 30)⟩]))
    ∧ (∀ (transport : HReq → TransportResult) (cfg : Config)
        (cbs0 : Fixed.CBMap) (now : Int) (path method : String)
        (headers : StrMap) (s : Service) (st : Int) (rh : StrMap)
        (body : String),
      (Fixed.get_available_services cfg cbs0 now).1 = [s] →
      Orig.methodSupported (asciiUpper method) = true →
      transport ⟨asciiUpper method, s.url ++ path, headers,
        s.timeout.getD (cfg.default_timeout.getD 30)⟩ = .ok st rh body →
      300 ≤ st → st < 400 →
      Fixed.forward_request transport cfg cbs0 now path method headers =
        ((503, [], Fixed.errAllFailed (Orig.failDescOf s.name st) now),
         Fixed.record_failure cfg
           (Fixed.get_available_services cfg cbs0 now).2 s.name now,
         [Ev.call ⟨asciiUpper method, s.url ++ path, headers,
           s.timeout.getD (cfg.default_timeout.getD 30)⟩])) := by
  refine ⟨?_, ?_, ?_⟩
  · intro e s rest cbs le hg h4
    rw [Orig.routeLoop]
    dsimp only
    rw [hg]
    simp only [Bool.false_eq_true, if_false]
    rw [if_pos h4]
  · intro transport cfg cbs0 now path method headers s restA st rh body hav
      hm htr h2 h3
    rw [Fixed.forward_request]
    rw [hav]
    simp only [hm, Bool.not_true, Bool.false_eq_true, if_false]
    rw [htr]
    dsimp only
    rw [if_pos ⟨h2, h3⟩]
  · intro transport cfg cbs0 now path method headers s st rh body hav hm
      htr h2 h3
    rw [Fixed.forward_request]
    rw [hav]
    simp only [hm, Bool.not_true, Bool.false_eq_true, if_false]
    rw [htr]
    dsimp only
    rw [if_neg (by omega : ¬ (200 ≤ st ∧ st < 300))]
    rw [if_neg (by simp : ¬ (1 < ([s] : List Service).length))]

/-- C1 witness: one backend answering 204 through the fixed implementation:
the response is returned as-is and a breaker success is recorded. -/
theorem c1_witness :
    Fixed.forward_request (fun _ => .ok 204 [] "") cfg1 [] 0 "/x" "GET" [] =
      (((204 : Int), ([] : StrMap), RespBody.fromBackend ""),
       Fixed.record_success (Fixed.get_available_services cfg1 [] 0).2 "a",
       [Ev.call ⟨"GET", "http://a/x", [], 30⟩]) := by
  have h := c1_amended.2.1 (fun _ => .ok 204 [] "") cfg1 [] 0 "/x" "GET" []
    svA [] 204 [] "" (by decide) (by decide) rfl (by decide) (by decide)
  exact h

theorem lookup_mem {α : Type} (m : List (String × α)) (k : String) (v : α)
    (h : List.lookup k m = some v) : (k, v) ∈ m := by
  induction m with
  | nil => simp at h
  | cons p rest ih =>
    obtain ⟨k1, v1⟩ := p
    by_cases hk : k = k1
    · subst hk
      rw [lookup_cons_self] at h
      cases h
      simp
    · rw [lookup_cons_ne _ _ _ _ hk] at h
      simp [ih h]

theorem fixedInv_setK (cfg : Config) (cbs : Fixed.CBMap) (name : String)
    (v : Fixed.CBState) (hinv : fixedStatusInv cfg cbs)
    (hv : v.status = Fixed.CBStatus.opened →
      failure_threshold_of cfg ≤ v.failures) :
    fixedStatusInv cfg (setK cbs name v) := by
  intro p hp hopen
  rcases mem_setK cbs name v p hp with h | h
  · exact hinv p h hopen
  · subst h
    exact hv hopen

/-- C3: the breaker status becomes `open` exactly when the failure count
reaches `failure_threshold` after a recorded failure, and never while the
count is below the threshold.  For `lambda_function_fixed.py`: the entry
written by `record_failure` is `open` iff the incremented count reaches the
threshold (else the status is unchanged); moreover the invariant "an open
entry carries at least `failure_threshold` failures" holds of the empty
store and is preserved by `record_failure`, `record_success` and the
availability scan.  For `lambda_function.py` (derived status): immediately
after `record_failure` the breaker reads open iff the incremented count
reaches the threshold, and a backend whose count is below the threshold
never reads open. -/
theorem c3_breaker_opens_at_threshold :
    (∀ (cfg : Config) (cbs : Fixed.CBMap) (name : String) (now : Int),
      List.lookup name (Fixed.record_failure cfg cbs name now) =
        some ⟨if failure_threshold_of cfg ≤
                ((List.lookup name cbs).getD ⟨.closed, 0, 0⟩).failures + 1
              then .opened
              else ((List.lookup name cbs).getD ⟨.closed, 0, 0⟩).status,
              ((List.lookup name cbs).getD ⟨.closed, 0, 0⟩).failures + 1,
              now⟩)
    ∧ (∀ cfg : Config, fixedStatusInv cfg [])
    ∧ (∀ (cfg : Config) (cbs : Fixed.CBMap) (name : String) (now : Int),
      fixedStatusInv cfg cbs →
      fixedStatusInv cfg (Fixed.record_failure cfg cbs name now))
    ∧ (∀ (cfg : Config) (cbs : Fixed.CBMap) (name : String),
      fixedStatusInv cfg cbs →
      fixedStatusInv cfg (Fixed.record_success cbs name))
    ∧ (∀ (cfg : Config) (now : Int) (l : List Service) (cbs : Fixed.CBMap),
      fixedStatusInv cfg cbs →
      fixedStatusInv cfg (Fixed.availLoop cfg now l cbs).2)
    ∧ (∀ (cfg : Config) (cbs : Orig.CBMap) (name : String) (now : Int),
      0 < recovery_timeout_of cfg →
      ((Orig.is_circuit_breaker_open cfg
          (Orig.record_failure cbs name now) name now).1 = true ↔
        failure_threshold_of cfg ≤
          ((List.lookup name cbs).getD ⟨0, 0⟩).failures + 1))
    ∧ (∀ (cfg : Config) (cbs : Orig.CBMap) (name : String) (now : Int),
      ((List.lookup name cbs).getD ⟨0, 0⟩).failures <
        failure_threshold_of cfg →
      (Orig.is_circuit_breaker_open cfg cbs name now).1 = false) := by
  refine ⟨?_, ?_, ?_, ?_, ?_, ?_, ?_⟩
  · intro cfg cbs name now
    rw [Fixed.record_failure]
    exact lookup_setK_self cbs name _
  · intro cfg p hp
    simp at hp
  · intro cfg cbs name now hinv
    rw [Fixed.record_failure]
    refine fixedInv_setK cfg cbs name _ hinv ?_
    intro hopen
    dsimp only at hopen ⊢
    by_cases hth : failure_threshold_of cfg ≤
        ((List.lookup name cbs).getD ⟨.closed, 0, 0⟩).failures + 1
    · exact hth
    · rw [if_neg hth] at hopen
      cases hl : List.lookup name cbs with
      | none =>
        rw [hl] at hopen
        simp at hopen
      | some cd =>
        rw [hl] at hopen
        simp only [Option.getD_some] at hopen
        have hmem := lookup_mem cbs name cd hl
        have := hinv (name, cd) hmem hopen
        simp only [Option.getD_some]
        dsimp only at this
        omega
  · intro cfg cbs name hinv
    rw [Fixed.record_success]
    cases hl : List.lookup name cbs with
    | none => exact hinv
    | some cd =>
      by_cases hho : cd.status = Fixed.CBStatus.halfOpen
      · simp only [hho, beq_self_eq_true, if_true]
        refine fixedInv_setK cfg cbs name _ hinv ?_
        intro hopen
        simp at hopen
      · have hb : (cd.status == Fixed.CBStatus.halfOpen) = false :=
          beq_eq_false_iff_ne.mpr hho
        simp only [hb, Bool.false_eq_true, if_false]
        exact hinv
  · intro cfg now l
    induction l with
    | nil =>
      intro cbs hinv
      simpa [Fixed.availLoop] using hinv
    | cons s rest ih =>
      intro cbs hinv
      rw [Fixed.availLoop]
      dsimp only
      split
      · exact ih cbs hinv
      · split
        · split
          · split
            · exact ih cbs hinv
            · exact ih _ (fixedInv_setK cfg cbs s.name _ hinv
                (by intro h; simp at h))
          · exact ih cbs hinv
        · exact ih cbs hinv
  · intro cfg cbs name now hrt
    rw [Orig.record_failure]
    rw [Orig.is_circuit_breaker_open]
    rw [lookup_setK_self]
    simp only [Option.getD_some]
    by_cases hth : failure_threshold_of cfg ≤
        ((List.lookup name cbs).getD ⟨0, 0⟩).failures + 1
    · rw [if_pos hth]
      rw [if_pos (by omega)]
      simp [hth]
    · rw [if_neg hth]
      simp [hth]
  · intro cfg cbs name now hth
    rw [Orig.is_circuit_breaker_open]
    rw [if_neg (by omega)]

/-- C3 witness: a closed entry with 4 failures under the default threshold
of 5: one more failure writes an `open` entry with 5 failures; and in the
original implementation a fresh backend with one recorded failure does not
read open. -/
theorem c3_witness :
    List.lookup "a"
        (Fixed.record_failure cfg1 [("a", ⟨.closed, 4, 2⟩)] "a" 9) =
      some ⟨.opened, 5, 9⟩ ∧
    (Orig.is_circuit_breaker_open cfg1
        (Orig.record_failure [] "a" 3) "a" 3).1 = false := by
  constructor
  · have h := c3_breaker_opens_at_threshold.1 cfg1
      [("a", ⟨.closed, 4, 2⟩)] "a" 9
    rw [h]
    decide
  · have h := (c3_breaker_opens_at_threshold.2.2.2.2.2.1 cfg1 [] "a" 3
      (by decide))
    simp only [Bool.eq_false_iff]
    intro hc
    have := h.mp hc
    revert this
    decide

/-- C2 counterexample: three enabled candidates all answering 500 through
`lambda_function_fixed.py`: the router returns the synthetic 503 after
attempting only the first two — candidate "c" is never attempted, refuting
"only after every candidate in the computed list has been attempted". -/
theorem c2_counterexample :
    (Fixed.get_available_services cfg3 [] 0).1.length = 3 ∧
    (Fixed.forward_request trOk500 cfg3 [] 0 "/x" "GET" []).1.1 = 503 ∧
    (Fixed.forward_request trOk500 cfg3 [] 0 "/x" "GET" []).2.2 =
      [Ev.call ⟨"GET", "http://a/x", [], 30⟩,
       Ev.call ⟨"GET", "http://b/x", [], 30⟩] := by
  decide

/-- C2 amended: in `lambda_function.py` the claim holds as stated — when
every candidate's forwarded status is ≥ 400 (away from the health-gated
paths), the loop records one failure per candidate in order, attempts every
candidate exactly once, and returns a synthetic 503 whose body carries the
last failure description and a timestamp.  In `lambda_function_fixed.py`,
however, at most two candidates are ever attempted per request, and a
transport exception on the first candidate yields the synthetic 503
immediately with no fallback attempt. -/
theorem c2_amended :
    (∀ (e : Orig.Env) (l : List Service) (cbs : Orig.CBMap)
        (le : Option String),
      Orig.gatedPath e.path = false →
      (∀ s ∈ l,
        400 ≤ (Orig.forward_request e.transport s e.path e.method
          e.headers).1) →
      Orig.routeLoop e l cbs le =
        ({ statusCode := 503, headers := Orig.corsHeaders,
           body := Orig.allFailedBody (lastFailDesc e le l) e.now,
           isBase64Encoded := false },
         recordAllFailures e.now cbs l,
         allCallEvents e l))
    ∧ (∀ (transport : HReq → TransportResult) (cfg : Config)
        (cbs0 : Fixed.CBMap) (now : Int) (path method : String)
        (headers : StrMap),
      (Fixed.forward_request transport cfg cbs0 now path method
        headers).2.2.length ≤ 2)
    ∧ (∀ (transport : HReq → TransportResult) (cfg : Config)
        (cbs0 : Fixed.CBMap) (now : Int) (path method : String)
        (headers : StrMap) (s : Service) (restA : List Service)
        (msg : String),
      (Fixed.get_available_services cfg cbs0 now).1 = s :: restA →
      Orig.methodSupported (asciiUpper method) = true →
      transport ⟨asciiUpper method, s.url ++ path, headers,
        s.timeout.getD (cfg.default_timeout.getD 30)⟩ = .exc msg →
      Fixed.forward_request transport cfg cbs0 now path method headers =
        ((503, [], .errJson "Service not reachable at this moment"
            "All AI services failed to process the request. Please try again later."
            (some (some ("Service " ++ s.name ++ " error: " ++ msg)))
            (some now)),
         Fixed.record_failure cfg
           (Fixed.get_available_services cfg cbs0 now).2 s.name now,
         [Ev.call ⟨asciiUpper method, s.url ++ path, headers,
           s.timeout.getD (cfg.default_timeout.getD 30)⟩])) := by
  refine ⟨?_, ?_, ?_⟩
  · intro e l
    induction l with
    | nil =>
      intro cbs le hg hfail
      simp [Orig.routeLoop, lastFailDesc, recordAllFailures, allCallEvents]
    | cons s rest ih =>
      intro cbs le hg hfail
      have hs := hfail s (by simp)
      have hrest : ∀ t ∈ rest,
          400 ≤ (Orig.forward_request e.transport t e.path e.method
            e.headers).1 :=
        fun t ht => hfail t (by simp [ht])
      rw [Orig.routeLoop]
      dsimp only
      rw [hg]
      simp only [Bool.false_and, Bool.false_eq_true, if_false]
      have hlt : ¬ ((Orig.forward_request e.transport s e.path e.method
          e.headers).1 < 400) := by omega
      rw [if_neg hlt]
      rw [ih (Orig.record_failure cbs s.name e.now)
        (some (Orig.failDescOf s.name
          (Orig.forward_request e.transport s e.path e.method
            e.headers).1)) hg hrest]
      rw [lastFailDesc, recordAllFailures, allCallEvents]
      simp
  · intro transport cfg cbs0 now path method headers
    rw [Fixed.forward_request]
    repeat' (first | split | dsimp only)
    all_goals simp
  · intro transport cfg cbs0 now path method headers s restA msg hav hm htr
    rw [Fixed.forward_request]
    rw [hav]
    simp only [hm, Bool.not_true, Bool.false_eq_true, if_false]
    rw [htr]
    rfl

/-- C2 witness: three candidates all answering 500 through the original
implementation's loop: one failure recorded per candidate, three forwarded
attempts, and the final 503 carries the last failure description. -/
theorem c2_witness :
    Orig.routeLoop env500 [svA, svB, svC] [] none =
      ({ statusCode := 503, headers := Orig.corsHeaders,
         body := Orig.allFailedBody
           (lastFailDesc env500 none [svA, svB, svC]) 0,
         isBase64Encoded := false },
       recordAllFailures 0 [] [svA, svB, svC],
       allCallEvents env500 [svA, svB, svC]) :=
  c2_amended.1 env500 [svA, svB, svC] [] none (by decide) (by decide)

/-- C6: in both implementations `get_available_services` excludes every
backend with `enabled = false`, returns a list sorted by ascending priority
(default 999), drawn in declaration order from the configured list (the
pre-sort scan is an order-preserving sublist of `ai_services`), and the
sort is stable: for every priority value, the equal-priority backends
appear exactly as in the declaration-ordered scan. -/
theorem c6_selector_filters_and_sorts :
    (∀ (cfg : Config) (cbs : Orig.CBMap) (now : Int),
      (Orig.get_available_services cfg cbs now).1.all
          (fun s => s.enabled.getD true) = true
      ∧ (Orig.get_available_services cfg cbs now).1.Pairwise
          (fun a b => prioKey a ≤ prioKey b)
      ∧ (Orig.availLoop cfg now cfg.ai_services cbs).1.Sublist
          cfg.ai_services
      ∧ ∀ p : Int,
          (Orig.get_available_services cfg cbs now).1.filter
              (fun s => prioKey s == p) =
            (Orig.availLoop cfg now cfg.ai_services cbs).1.filter
              (fun s => prioKey s == p))
    ∧ (∀ (cfg : Config) (cbs : Fixed.CBMap) (now : Int),
      (Fixed.get_available_services cfg cbs now).1.all
          (fun s => s.enabled.getD true) = true
      ∧ (Fixed.get_available_services cfg cbs now).1.Pairwise
          (fun a b => prioKey a ≤ prioKey b)
      ∧ (Fixed.availLoop cfg now cfg.ai_services cbs).1.Sublist
          cfg.ai_services
      ∧ ∀ p : Int,
          (Fixed.get_available_services cfg cbs now).1.filter
              (fun s => prioKey s == p) =
            (Fixed.availLoop cfg now cfg.ai_services cbs).1.filter
              (fun s => prioKey s == p)) := by
  constructor
  · intro cfg cbs now
    have hmain : (Orig.get_available_services cfg cbs now).1 =
        sortByPriority (Orig.availLoop cfg now cfg.ai_services cbs).1 := rfl
    refine ⟨?_, ?_, ?_, ?_⟩
    · rw [hmain, List.all_eq_true]
      intro x hx
      exact orig_availLoop_enabled cfg now cfg.ai_services cbs x
        ((mem_sortByPriority x _).mp hx)
    · rw [hmain]
      exact pairwise_sortByPriority _
    · exact orig_availLoop_sublist cfg now cfg.ai_services cbs
    · intro p
      rw [hmain]
      exact filter_sortByPriority _ p
  · intro cfg cbs now
    have hmain : (Fixed.get_available_services cfg cbs now).1 =
        sortByPriority (Fixed.availLoop cfg now cfg.ai_services cbs).1 := rfl
    refine ⟨?_, ?_, ?_, ?_⟩
    · rw [hmain, List.all_eq_true]
      intro x hx
      exact fixed_availLoop_enabled cfg now cfg.ai_services cbs x
        ((mem_sortByPriority x _).mp hx)
    · rw [hmain]
      exact pairwise_sortByPriority _
    · exact fixed_availLoop_sublist cfg now cfg.ai_services cbs
    · intro p
      rw [hmain]
      exact filter_sortByPriority _ p

/-- C6 witness: a configuration declaring priorities `[b:2, d:0 disabled,
a:1, a2:1]`: the disabled backend is excluded, the result is sorted
ascending, and the two priority-1 backends keep declaration order
(`a` before `a2`). -/
theorem c6_witness :
    (Orig.get_available_services cfgMix [] 0).1.all
        (fun s => s.enabled.getD true) = true ∧
    (Orig.get_available_services cfgMix [] 0).1.filter
        (fun s => prioKey s == 1) =
      (Orig.availLoop cfgMix 0 cfgMix.ai_services []).1.filter
        (fun s => prioKey s == 1) ∧
    (Orig.get_available_services cfgMix [] 0).1 = [svA, svA2, svB] :=
  ⟨(c6_selector_filters_and_sorts.1 cfgMix [] 0).1,
   (c6_selector_filters_and_sorts.1 cfgMix [] 0).2.2.2 1,
   by decide⟩

end ThakiiRouter
